import Mathlib

/-!
# Redirect-URI membership reconciliation of the Okta provider

A shallow embedding of `okta/resource_okta_app_oauth_redirect_uri.go`:
`appendRedirectURI`, `resourceAppOAuthRedirectURICreate`,
`resourceAppOAuthRedirectURIUpdate` and `resourceAppOAuthRedirectURIDelete`.

Every operation is a pure function of the resource data `d` and of the answers of
the remote API client `m`. It returns the sequence of observable events (lock,
unlock, fetch, update, log line), the resource data after the call and the Go
return value. A Go `error` is `Option String` (`none` is `nil`); `diag.Diagnostics`
is a list of messages (`[]` is `nil`, no diagnostics).
-/

set_option autoImplicit false

namespace Okta

/-! ## Data model -/

/-- The part `app.Settings.OauthClient` of an OpenID Connect application. -/
structure OpenIdConnectApplicationSettingsClient where
  RedirectUris : List String
  deriving DecidableEq, Repr

/-- The part `app.Settings` of an OpenID Connect application. -/
structure OpenIdConnectApplicationSettings where
  OauthClient : OpenIdConnectApplicationSettingsClient
  deriving DecidableEq, Repr

/-- The remote parent object `sdk.OpenIdConnectApplication`, reduced to the two fields
the resource reads: `app.Id` and `app.Settings.OauthClient.RedirectUris`. -/
structure OpenIdConnectApplication where
  Id : String
  Settings : OpenIdConnectApplicationSettings
  deriving DecidableEq, Repr

/-- The redirect URI list `app.Settings.OauthClient.RedirectUris`. -/
def OpenIdConnectApplication.uris (app : OpenIdConnectApplication) : List String :=
  app.Settings.OauthClient.RedirectUris

/-- The assignment `app.Settings.OauthClient.RedirectUris = l`; no other field changes. -/
def OpenIdConnectApplication.setUris (app : OpenIdConnectApplication) (l : List String) :
    OpenIdConnectApplication :=
  { app with Settings := { app.Settings with OauthClient := { RedirectUris := l } } }

/-- The `*schema.ResourceData` of the child resource: `d.Id()`, `d.Get("app_id")` and
`d.Get("uri")`. On a first create `d.Id()` is the empty string. -/
structure ResourceData where
  id : String
  app_id : String
  uri : String
  deriving DecidableEq, Repr

/-- The call `d.SetId(v)`. -/
def ResourceData.SetId (d : ResourceData) (v : String) : ResourceData :=
  { d with id := v }

/-- A Go `error`: `none` is `nil`, `some msg` is an error with that text. -/
abbrev Error := Option String

/-- The type `diag.Diagnostics`: the empty list is `nil`. -/
abbrev Diagnostics := List String

/-- The call `diag.Errorf`: one error diagnostic carrying the formatted message. -/
def diagErrorf (msg : String) : Diagnostics := [msg]

/-- The remote API as seen through the provider metadata `m`. `fetchAppByID` and
`updateAppByID` are not part of the available sources; their answers are parameters.
`fetchAppByID` either fails or fills the application object (an empty `Id` when the
remote side has no such application); `updateAppByID` returns a Go error. -/
structure Client where
  fetchAppByID : String → Except String OpenIdConnectApplication
  updateAppByID : String → OpenIdConnectApplication → Error

/-- Observable events of one operation, in program order. -/
inductive Event where
  | lock (key : String)
  | unlock (key : String)
  | fetch (appID : String)
  | update (appID : String) (app : OpenIdConnectApplication)
  | info (msg : String)
  deriving DecidableEq, Repr

/-- What one CRUD entry point leaves behind: the events, the resource data and the
returned diagnostics. -/
structure Outcome where
  trace : List Event
  d : ResourceData
  diags : Diagnostics
  deriving DecidableEq, Repr

/-! ## Helpers that the resource file calls -/

/-- Modelled from the spec: the helper `contains` is called by the resource file but is
not part of the available sources. The spec reads the test as `item_value ∈ items`. -/
def contains (arr : List String) (el : String) : Bool :=
  match arr with
  | [] => false
  | item :: rest => if item = el then true else contains rest el

/-- Modelled from the spec: the helper `remove` is called by the resource file but is
not part of the available sources. The spec says: remove the first (and only expected)
occurrence of `item_value`. -/
def remove (arr : List String) (el : String) : List String :=
  match arr with
  | [] => []
  | item :: rest => if item = el then rest else item :: remove rest el

/-- Modelled from the spec: `resourceFuncNoOp` (the read transition) is not part of the
available sources. The spec says it is intentionally a no-op: it makes no remote call
and reports no diagnostics. -/
def resourceFuncNoOp (_m : Client) (_d : ResourceData) : Diagnostics := []

/-! ## The operations -/

/-- The body of `appendRedirectURI` between `Lock` and the deferred `Unlock`
(source lines 86 to 99): the events of the critical section and the returned error. -/
def appendRedirectURIBody (m : Client) (d : ResourceData) (appID : String) :
    List Event × Error :=
  match m.fetchAppByID appID with
  | .error err => ([Event.fetch appID], some err)
  | .ok app =>
    if app.Id = "" then
      ([Event.fetch appID], some ("application with id " ++ appID ++ " does not exist"))
    else if contains app.uris d.id then
      ([Event.fetch appID,
        Event.info ("application with appID " ++ appID ++ " already has redirect URI " ++ d.id)],
       none)
    else
      let uri := d.uri
      let app2 := app.setUris (app.uris ++ [uri])
      ([Event.fetch appID, Event.update appID app2], m.updateAppByID appID app2)

/-- The function `appendRedirectURI`: the lock of `app_id` is taken, the body runs, and
the deferred unlock runs on every return. -/
def appendRedirectURI (m : Client) (d : ResourceData) : List Event × Error :=
  let appID := d.app_id
  let r := appendRedirectURIBody m d appID
  (Event.lock appID :: r.1 ++ [Event.unlock appID], r.2)

/-- The function `resourceAppOAuthRedirectURICreate`. -/
def resourceAppOAuthRedirectURICreate (m : Client) (d : ResourceData) : Outcome :=
  let r := appendRedirectURI m d
  match r.2 with
  | some err => ⟨r.1, d, diagErrorf ("failed to create redirect URI: " ++ err)⟩
  | none =>
    let d2 := d.SetId d.uri
    ⟨r.1, d2, resourceFuncNoOp m d2⟩

/-- The function `resourceAppOAuthRedirectURIUpdate`. -/
def resourceAppOAuthRedirectURIUpdate (m : Client) (d : ResourceData) : Outcome :=
  let r := appendRedirectURI m d
  match r.2 with
  | some err => ⟨r.1, d, diagErrorf ("failed to update redirect URI: " ++ err)⟩
  | none =>
    let d2 := d.SetId d.uri
    ⟨r.1, d2, resourceFuncNoOp m d2⟩

/-- The body of `resourceAppOAuthRedirectURIDelete` between `Lock` and the deferred
`Unlock` (source lines 60 to 77). -/
def resourceAppOAuthRedirectURIDeleteBody (m : Client) (d : ResourceData) (appID : String) :
    List Event × Diagnostics :=
  match m.fetchAppByID appID with
  | .error err => ([Event.fetch appID], diagErrorf ("failed to get application: " ++ err))
  | .ok app =>
    if app.Id = "" then
      ([Event.fetch appID], diagErrorf ("application with id " ++ appID ++ " does not exist"))
    else if !contains app.uris d.id then
      ([Event.fetch appID,
        Event.info ("application with appID " ++ appID ++ " does not have redirect URI " ++ d.id)],
       [])
    else
      let app2 := app.setUris (remove app.uris d.id)
      match m.updateAppByID appID app2 with
      | some err =>
        ([Event.fetch appID, Event.update appID app2],
         diagErrorf ("failed to delete redirect URI: " ++ err))
      | none => ([Event.fetch appID, Event.update appID app2], [])

/-- The function `resourceAppOAuthRedirectURIDelete`. -/
def resourceAppOAuthRedirectURIDelete (m : Client) (d : ResourceData) : Outcome :=
  let appID := d.app_id
  let r := resourceAppOAuthRedirectURIDeleteBody m d appID
  ⟨Event.lock appID :: r.1 ++ [Event.unlock appID], d, r.2⟩

/-! ## Reading a trace -/

/-- The update calls of a trace, in order: the application id and the object sent. -/
def updateCalls : List Event → List (String × OpenIdConnectApplication)
  | [] => []
  | Event.update k app :: es => (k, app) :: updateCalls es
  | _ :: es => updateCalls es

/-- Whether an event takes or releases a lock. -/
def Event.isLockOp : Event → Bool
  | Event.lock _ => true
  | Event.unlock _ => true
  | _ => false

/-- The application id a remote call is addressed to; `none` for the other events. -/
def Event.remoteKey : Event → Option String
  | Event.fetch k => some k
  | Event.update k _ => some k
  | _ => none

/-! ## The remote side -/

/-- Modelled from the spec: the remote API keeps one full object per parent id; a fetch
returns the stored object (an object with an empty `Id` when the parent is missing) and
an update replaces the entire stored object. The implementation of the remote side is
not part of the available sources. -/
abbrev Remote := String → OpenIdConnectApplication

/-- The client of a remote store on which every call succeeds. -/
def Remote.client (r : Remote) : Client where
  fetchAppByID := fun appID => Except.ok (r appID)
  updateAppByID := fun _ _ => none

/-- The remote store after the update calls of a trace have replaced their objects. -/
def Remote.apply (r : Remote) : List Event → Remote
  | [] => r
  | Event.update k app :: es => Remote.apply (fun k2 => if k2 = k then app else r k2) es
  | _ :: es => Remote.apply r es

/-- An application object with the given id and redirect URI list. -/
def mkApp (id : String) (l : List String) : OpenIdConnectApplication :=
  ⟨id, ⟨⟨l⟩⟩⟩

/-- A remote store holding one application `id` with list `l`; every other id is missing. -/
def oneApp (id : String) (l : List String) : Remote :=
  fun k => if k = id then mkApp id l else mkApp "" []

/-! ## Facts about the helpers -/

theorem contains_iff (arr : List String) (el : String) :
    contains arr el = true ↔ el ∈ arr := by
  induction arr with
  | nil => simp [contains]
  | cons item rest ih =>
    by_cases h : item = el
    · simp [contains, h]
    · have h2 : ¬ el = item := fun e => h e.symm
      simp [contains, h, h2, ih]

theorem contains_eq_false_iff (arr : List String) (el : String) :
    contains arr el = false ↔ el ∉ arr := by
  rw [← contains_iff]
  cases contains arr el <;> simp

theorem remove_append_self (l : List String) (el : String) (h : el ∉ l) :
    remove (l ++ [el]) el = l := by
  induction l with
  | nil => simp [remove]
  | cons item rest ih =>
    have h1 : ¬ item = el := fun e => h (by simp [e])
    have h2 : el ∉ rest := fun e => h (by simp [e])
    simp [remove, h1, ih h2]

theorem remove_decomp (l : List String) (el : String) (h : el ∈ l) :
    ∃ l1 l2, l = l1 ++ el :: l2 ∧ el ∉ l1 ∧ remove l el = l1 ++ l2 := by
  induction l with
  | nil => simp at h
  | cons item rest ih =>
    by_cases h1 : item = el
    · exact ⟨[], rest, by simp [h1], by simp, by simp [remove, h1]⟩
    · have h2 : el ∈ rest := by
        rcases List.mem_cons.mp h with e | e
        · exact absurd e.symm h1
        · exact e
      obtain ⟨l1, l2, e1, e2, e3⟩ := ih h2
      refine ⟨item :: l1, l2, by simp [e1], ?_, by simp [remove, h1, e3]⟩
      intro hm
      rcases List.mem_cons.mp hm with e | e
      · exact h1 e.symm
      · exact e2 e

theorem setUris_uris (app : OpenIdConnectApplication) : app.setUris app.uris = app := by
  rfl

theorem uris_setUris (app : OpenIdConnectApplication) (l : List String) :
    (app.setUris l).uris = l := by
  rfl

theorem setUris_setUris (app : OpenIdConnectApplication) (l1 l2 : List String) :
    (app.setUris l1).setUris l2 = app.setUris l2 := by
  rfl

/-! ## The paths of `appendRedirectURI` -/

theorem appendRedirectURI_fetch_error (m : Client) (d : ResourceData) (err : String)
    (hf : m.fetchAppByID d.app_id = Except.error err) :
    appendRedirectURI m d =
      ([Event.lock d.app_id, Event.fetch d.app_id, Event.unlock d.app_id], some err) := by
  simp [appendRedirectURI, appendRedirectURIBody, hf]

theorem appendRedirectURI_not_found (m : Client) (d : ResourceData)
    (app : OpenIdConnectApplication)
    (hf : m.fetchAppByID d.app_id = Except.ok app) (hid : app.Id = "") :
    appendRedirectURI m d =
      ([Event.lock d.app_id, Event.fetch d.app_id, Event.unlock d.app_id],
       some ("application with id " ++ d.app_id ++ " does not exist")) := by
  simp [appendRedirectURI, appendRedirectURIBody, hf, hid]

theorem appendRedirectURI_already (m : Client) (d : ResourceData)
    (app : OpenIdConnectApplication)
    (hf : m.fetchAppByID d.app_id = Except.ok app) (hid : app.Id ≠ "")
    (hc : d.id ∈ app.uris) :
    appendRedirectURI m d =
      ([Event.lock d.app_id, Event.fetch d.app_id,
        Event.info ("application with appID " ++ d.app_id ++ " already has redirect URI "
          ++ d.id),
        Event.unlock d.app_id], none) := by
  have hc2 := (contains_iff app.uris d.id).mpr hc
  simp [appendRedirectURI, appendRedirectURIBody, hf, hid, hc2]

theorem appendRedirectURI_append (m : Client) (d : ResourceData)
    (app : OpenIdConnectApplication)
    (hf : m.fetchAppByID d.app_id = Except.ok app) (hid : app.Id ≠ "")
    (hc : d.id ∉ app.uris) :
    appendRedirectURI m d =
      ([Event.lock d.app_id, Event.fetch d.app_id,
        Event.update d.app_id (app.setUris (app.uris ++ [d.uri])),
        Event.unlock d.app_id],
       m.updateAppByID d.app_id (app.setUris (app.uris ++ [d.uri]))) := by
  have hc2 := (contains_eq_false_iff app.uris d.id).mpr hc
  simp [appendRedirectURI, appendRedirectURIBody, hf, hid, hc2]

/-- When the identifier held before the call is not in the fetched list, a create whose
update call succeeds sends the fetched list with the uri appended, and sets the id. -/
theorem create_appends_when_id_absent (m : Client) (d : ResourceData)
    (app : OpenIdConnectApplication)
    (hf : m.fetchAppByID d.app_id = Except.ok app) (hid : app.Id ≠ "")
    (hc : d.id ∉ app.uris)
    (hu : m.updateAppByID d.app_id (app.setUris (app.uris ++ [d.uri])) = none) :
    updateCalls (resourceAppOAuthRedirectURICreate m d).trace =
        [(d.app_id, app.setUris (app.uris ++ [d.uri]))] ∧
      (resourceAppOAuthRedirectURICreate m d).diags = [] ∧
      (resourceAppOAuthRedirectURICreate m d).d.id = d.uri := by
  simp [resourceAppOAuthRedirectURICreate, appendRedirectURI_append m d app hf hid hc, hu,
    updateCalls, resourceFuncNoOp, ResourceData.SetId]

/-- The same for the update entry point: when the identifier held before the call is not
in the fetched list, the fetched list with the uri appended is sent and the id is set. -/
theorem update_appends_when_id_absent (m : Client) (d : ResourceData)
    (app : OpenIdConnectApplication)
    (hf : m.fetchAppByID d.app_id = Except.ok app) (hid : app.Id ≠ "")
    (hc : d.id ∉ app.uris)
    (hu : m.updateAppByID d.app_id (app.setUris (app.uris ++ [d.uri])) = none) :
    updateCalls (resourceAppOAuthRedirectURIUpdate m d).trace =
        [(d.app_id, app.setUris (app.uris ++ [d.uri]))] ∧
      (resourceAppOAuthRedirectURIUpdate m d).diags = [] ∧
      (resourceAppOAuthRedirectURIUpdate m d).d.id = d.uri := by
  simp [resourceAppOAuthRedirectURIUpdate, appendRedirectURI_append m d app hf hid hc, hu,
    updateCalls, resourceFuncNoOp, ResourceData.SetId]

/-- When the identifier held before the call is in the fetched list, create and update
make no update call, whatever the uri is, and report success with the id set to the uri. -/
theorem ensure_present_skips_when_id_present (m : Client) (d : ResourceData)
    (app : OpenIdConnectApplication)
    (hf : m.fetchAppByID d.app_id = Except.ok app) (hid : app.Id ≠ "")
    (hc : d.id ∈ app.uris) :
    updateCalls (resourceAppOAuthRedirectURICreate m d).trace = [] ∧
      (resourceAppOAuthRedirectURICreate m d).diags = [] ∧
      (resourceAppOAuthRedirectURICreate m d).d.id = d.uri ∧
      updateCalls (resourceAppOAuthRedirectURIUpdate m d).trace = [] ∧
      (resourceAppOAuthRedirectURIUpdate m d).diags = [] ∧
      (resourceAppOAuthRedirectURIUpdate m d).d.id = d.uri := by
  simp [resourceAppOAuthRedirectURICreate, resourceAppOAuthRedirectURIUpdate,
    appendRedirectURI_already m d app hf hid hc, updateCalls, resourceFuncNoOp,
    ResourceData.SetId]

/-! ## Create and update in terms of `appendRedirectURI` -/

theorem create_of_none (m : Client) (d : ResourceData)
    (h : (appendRedirectURI m d).2 = none) :
    resourceAppOAuthRedirectURICreate m d = ⟨(appendRedirectURI m d).1, d.SetId d.uri, []⟩ := by
  unfold resourceAppOAuthRedirectURICreate
  simp only [h, resourceFuncNoOp]

theorem create_of_some (m : Client) (d : ResourceData) (err : String)
    (h : (appendRedirectURI m d).2 = some err) :
    resourceAppOAuthRedirectURICreate m d =
      ⟨(appendRedirectURI m d).1, d, diagErrorf ("failed to create redirect URI: " ++ err)⟩ := by
  unfold resourceAppOAuthRedirectURICreate
  simp only [h]

theorem update_of_none (m : Client) (d : ResourceData)
    (h : (appendRedirectURI m d).2 = none) :
    resourceAppOAuthRedirectURIUpdate m d = ⟨(appendRedirectURI m d).1, d.SetId d.uri, []⟩ := by
  unfold resourceAppOAuthRedirectURIUpdate
  simp only [h, resourceFuncNoOp]

theorem update_of_some (m : Client) (d : ResourceData) (err : String)
    (h : (appendRedirectURI m d).2 = some err) :
    resourceAppOAuthRedirectURIUpdate m d =
      ⟨(appendRedirectURI m d).1, d, diagErrorf ("failed to update redirect URI: " ++ err)⟩ := by
  unfold resourceAppOAuthRedirectURIUpdate
  simp only [h]

/-! ## The paths of `resourceAppOAuthRedirectURIDelete` -/

theorem delete_fetch_error (m : Client) (d : ResourceData) (err : String)
    (hf : m.fetchAppByID d.app_id = Except.error err) :
    resourceAppOAuthRedirectURIDelete m d =
      ⟨[Event.lock d.app_id, Event.fetch d.app_id, Event.unlock d.app_id], d,
       diagErrorf ("failed to get application: " ++ err)⟩ := by
  simp [resourceAppOAuthRedirectURIDelete, resourceAppOAuthRedirectURIDeleteBody, hf]

theorem delete_not_found (m : Client) (d : ResourceData) (app : OpenIdConnectApplication)
    (hf : m.fetchAppByID d.app_id = Except.ok app) (hid : app.Id = "") :
    resourceAppOAuthRedirectURIDelete m d =
      ⟨[Event.lock d.app_id, Event.fetch d.app_id, Event.unlock d.app_id], d,
       diagErrorf ("application with id " ++ d.app_id ++ " does not exist")⟩ := by
  simp [resourceAppOAuthRedirectURIDelete, resourceAppOAuthRedirectURIDeleteBody, hf, hid]

theorem delete_absent (m : Client) (d : ResourceData) (app : OpenIdConnectApplication)
    (hf : m.fetchAppByID d.app_id = Except.ok app) (hid : app.Id ≠ "")
    (hc : d.id ∉ app.uris) :
    resourceAppOAuthRedirectURIDelete m d =
      ⟨[Event.lock d.app_id, Event.fetch d.app_id,
        Event.info ("application with appID " ++ d.app_id ++ " does not have redirect URI "
          ++ d.id),
        Event.unlock d.app_id], d, []⟩ := by
  have hc2 := (contains_eq_false_iff app.uris d.id).mpr hc
  simp [resourceAppOAuthRedirectURIDelete, resourceAppOAuthRedirectURIDeleteBody, hf, hid, hc2]

theorem delete_present_trace (m : Client) (d : ResourceData) (app : OpenIdConnectApplication)
    (hf : m.fetchAppByID d.app_id = Except.ok app) (hid : app.Id ≠ "")
    (hc : d.id ∈ app.uris) :
    (resourceAppOAuthRedirectURIDelete m d).trace =
      [Event.lock d.app_id, Event.fetch d.app_id,
        Event.update d.app_id (app.setUris (remove app.uris d.id)),
        Event.unlock d.app_id] := by
  have hc2 := (contains_iff app.uris d.id).mpr hc
  simp only [resourceAppOAuthRedirectURIDelete, resourceAppOAuthRedirectURIDeleteBody, hf]
  cases m.updateAppByID d.app_id (app.setUris (remove app.uris d.id)) <;> simp [hid, hc2]

theorem delete_present_diags (m : Client) (d : ResourceData) (app : OpenIdConnectApplication)
    (hf : m.fetchAppByID d.app_id = Except.ok app) (hid : app.Id ≠ "")
    (hc : d.id ∈ app.uris)
    (hu : m.updateAppByID d.app_id (app.setUris (remove app.uris d.id)) = none) :
    (resourceAppOAuthRedirectURIDelete m d).diags = [] := by
  have hc2 := (contains_iff app.uris d.id).mpr hc
  simp [resourceAppOAuthRedirectURIDelete, resourceAppOAuthRedirectURIDeleteBody, hf, hid,
    hc2, hu]

/-! ## The claims -/

/-- C1 (fails on the code): scenario B of the specification. The parent holds
`["a", "b"]` and a first create (empty identifier) asks for `"a"`. The presence test
looks for the identifier, not for the uri, so the code sends one update call carrying
`["a", "b", "a"]` and reports success: a second copy of `"a"` is added. -/
theorem C1_create_appends_duplicate :
    contains ["a", "b"] "a" = true ∧
    updateCalls (resourceAppOAuthRedirectURICreate (oneApp "app1" ["a", "b"]).client
        ⟨"", "app1", "a"⟩).trace = [("app1", mkApp "app1" ["a", "b", "a"])] ∧
    (resourceAppOAuthRedirectURICreate (oneApp "app1" ["a", "b"]).client
        ⟨"", "app1", "a"⟩).diags = [] := by
  decide

/-- C2 (fails on the code): the parent list is `[""]` and a first create (empty
identifier) asks for `"a"`, which is not in the list. The presence test finds the empty
identifier in the list, so the code makes no update call, reports success and sets the
identifier to `"a"`. -/
theorem C2_create_skips_append :
    contains [""] "a" = false ∧
    updateCalls (resourceAppOAuthRedirectURICreate (oneApp "app1" [""]).client
        ⟨"", "app1", "a"⟩).trace = [] ∧
    (resourceAppOAuthRedirectURICreate (oneApp "app1" [""]).client
        ⟨"", "app1", "a"⟩).diags = [] ∧
    (resourceAppOAuthRedirectURICreate (oneApp "app1" [""]).client
        ⟨"", "app1", "a"⟩).d.id = "a" := by
  decide

/-- C3 (fails on the code): the parent list is `["u"]`, the child is tracked under the
identifier `"u"` and the desired uri changes to `"v"`. The presence test finds the old
identifier `"u"`, so the update entry point makes no update call, reports success and
sets the identifier to `"v"`, a value that is not in the remote list. -/
theorem C3_update_skips_new_value :
    contains ["u"] "v" = false ∧
    updateCalls (resourceAppOAuthRedirectURIUpdate (oneApp "app1" ["u"]).client
        ⟨"u", "app1", "v"⟩).trace = [] ∧
    (resourceAppOAuthRedirectURIUpdate (oneApp "app1" ["u"]).client
        ⟨"u", "app1", "v"⟩).diags = [] ∧
    (resourceAppOAuthRedirectURIUpdate (oneApp "app1" ["u"]).client
        ⟨"u", "app1", "v"⟩).d.id = "v" := by
  decide

/-- C4 (as stated, refuted): the fetch answers without error with an object whose id is
empty, and the delete entry point returns an error diagnostic instead of success. -/
theorem C4_delete_missing_parent_counterexample :
    (oneApp "app1" ["u"]).client.fetchAppByID "gone" = Except.ok (mkApp "" []) ∧
    (resourceAppOAuthRedirectURIDelete (oneApp "app1" ["u"]).client
        ⟨"u", "gone", "u"⟩).diags = ["application with id gone does not exist"] ∧
    (resourceAppOAuthRedirectURIDelete (oneApp "app1" ["u"]).client
        ⟨"u", "gone", "u"⟩).diags ≠ [] :=
  ⟨rfl, by decide, by decide⟩

/-- C4 (amended): deleting under a missing parent fails. When the fetch returns an error,
or returns without error an object whose id is empty, the delete entry point returns
exactly one error diagnostic, makes no update call and leaves the resource data as it
was. -/
theorem C4_delete_missing_parent_fails (m : Client) (d : ResourceData)
    (h : (∃ err, m.fetchAppByID d.app_id = Except.error err) ∨
         (∃ app, m.fetchAppByID d.app_id = Except.ok app ∧ app.Id = "")) :
    (∃ msg, (resourceAppOAuthRedirectURIDelete m d).diags = diagErrorf msg) ∧
    (resourceAppOAuthRedirectURIDelete m d).diags ≠ [] ∧
    updateCalls (resourceAppOAuthRedirectURIDelete m d).trace = [] ∧
    (resourceAppOAuthRedirectURIDelete m d).d = d := by
  rcases h with ⟨err, hf⟩ | ⟨app, hf, hid⟩
  · rw [delete_fetch_error m d err hf]
    exact ⟨⟨_, rfl⟩, by simp [diagErrorf], by simp [updateCalls], rfl⟩
  · rw [delete_not_found m d app hf hid]
    exact ⟨⟨_, rfl⟩, by simp [diagErrorf], by simp [updateCalls], rfl⟩

/-- C4 (amended), at a parent id the remote side does not know. -/
theorem C4_delete_missing_parent_fails_witness :
    (∃ msg, (resourceAppOAuthRedirectURIDelete (oneApp "app1" ["u"]).client
        ⟨"u", "gone", "u"⟩).diags = diagErrorf msg) ∧
    (resourceAppOAuthRedirectURIDelete (oneApp "app1" ["u"]).client
        ⟨"u", "gone", "u"⟩).diags ≠ [] ∧
    updateCalls (resourceAppOAuthRedirectURIDelete (oneApp "app1" ["u"]).client
        ⟨"u", "gone", "u"⟩).trace = [] ∧
    (resourceAppOAuthRedirectURIDelete (oneApp "app1" ["u"]).client
        ⟨"u", "gone", "u"⟩).d = ⟨"u", "gone", "u"⟩ :=
  C4_delete_missing_parent_fails (oneApp "app1" ["u"]).client ⟨"u", "gone", "u"⟩
    (Or.inr ⟨mkApp "" [], rfl, by decide⟩)

/-- C5: for an existing parent whose list contains the tracked value, the delete entry
point makes exactly one update call. The fetched list splits as `l1 ++ v :: l2` with `v`
not in `l1`, and the object sent has the id of the fetched object and carries exactly the
list `l1 ++ l2`: only the first occurrence of `v` is gone, the entries before it and all
the entries after it (later copies of `v` included) keep their order. The whole trace is
lock, fetch, that one update, unlock, whatever the update call answers. -/
theorem C5_delete_removes_first_occurrence (m : Client) (d : ResourceData)
    (app : OpenIdConnectApplication)
    (hf : m.fetchAppByID d.app_id = Except.ok app) (hid : app.Id ≠ "")
    (hmem : d.id ∈ app.Settings.OauthClient.RedirectUris) :
    ∃ l1 l2, app.Settings.OauthClient.RedirectUris = l1 ++ d.id :: l2 ∧ d.id ∉ l1 ∧
      (resourceAppOAuthRedirectURIDelete m d).trace =
        [Event.lock d.app_id, Event.fetch d.app_id,
         Event.update d.app_id
           { Id := app.Id, Settings := { OauthClient := { RedirectUris := l1 ++ l2 } } },
         Event.unlock d.app_id] ∧
      updateCalls (resourceAppOAuthRedirectURIDelete m d).trace =
        [(d.app_id,
          { Id := app.Id, Settings := { OauthClient := { RedirectUris := l1 ++ l2 } } })] := by
  obtain ⟨l1, l2, e1, e2, e3⟩ := remove_decomp app.uris d.id hmem
  have ht := delete_present_trace m d app hf hid hmem
  have hs : app.setUris (remove app.uris d.id) =
      { Id := app.Id, Settings := { OauthClient := { RedirectUris := l1 ++ l2 } } } := by
    rw [e3]; rfl
  rw [hs] at ht
  refine ⟨l1, l2, e1, e2, ht, ?_⟩
  rw [ht]
  rfl

/-- C5 at the list `["b", "a", "c", "a"]` and the tracked value `"a"`: the update call
carries `["b", "c", "a"]`. -/
theorem C5_delete_removes_first_occurrence_witness :
    (∃ l1 l2, ["b", "a", "c", "a"] = l1 ++ "a" :: l2 ∧ "a" ∉ l1 ∧
      (resourceAppOAuthRedirectURIDelete
        (oneApp "app1" ["b", "a", "c", "a"]).client ⟨"a", "app1", "a"⟩).trace =
        [Event.lock "app1", Event.fetch "app1",
         Event.update "app1"
           { Id := "app1", Settings := { OauthClient := { RedirectUris := l1 ++ l2 } } },
         Event.unlock "app1"] ∧
      updateCalls (resourceAppOAuthRedirectURIDelete
        (oneApp "app1" ["b", "a", "c", "a"]).client ⟨"a", "app1", "a"⟩).trace =
        [("app1",
          { Id := "app1", Settings := { OauthClient := { RedirectUris := l1 ++ l2 } } })]) ∧
    (resourceAppOAuthRedirectURIDelete
        (oneApp "app1" ["b", "a", "c", "a"]).client ⟨"a", "app1", "a"⟩).trace =
      [Event.lock "app1", Event.fetch "app1",
       Event.update "app1"
         { Id := "app1", Settings := { OauthClient := { RedirectUris := ["b", "c", "a"] } } },
       Event.unlock "app1"] :=
  ⟨C5_delete_removes_first_occurrence (oneApp "app1" ["b", "a", "c", "a"]).client
    ⟨"a", "app1", "a"⟩ (mkApp "app1" ["b", "a", "c", "a"]) rfl (by decide) (by decide),
   by decide⟩

/-- C6: round trip. On a remote store whose calls all succeed, with an existing parent
whose list does not contain the uri, a create followed by a delete of the resulting
child leaves the store exactly as it was (same entries, same order), and both calls
report success. -/
theorem C6_round_trip (r : Remote) (d : ResourceData)
    (hid : (r d.app_id).Id ≠ "") (hv : d.uri ∉ (r d.app_id).uris) :
    (r.apply (resourceAppOAuthRedirectURICreate r.client d).trace).apply
        (resourceAppOAuthRedirectURIDelete
          (r.apply (resourceAppOAuthRedirectURICreate r.client d).trace).client
          (resourceAppOAuthRedirectURICreate r.client d).d).trace = r ∧
    (resourceAppOAuthRedirectURICreate r.client d).diags = [] ∧
    (resourceAppOAuthRedirectURIDelete
        (r.apply (resourceAppOAuthRedirectURICreate r.client d).trace).client
        (resourceAppOAuthRedirectURICreate r.client d).d).diags = [] := by
  have hf : r.client.fetchAppByID d.app_id = Except.ok (r d.app_id) := rfl
  by_cases hc : d.id ∈ (r d.app_id).uris
  · have h1 : resourceAppOAuthRedirectURICreate r.client d =
        ⟨[Event.lock d.app_id, Event.fetch d.app_id,
          Event.info ("application with appID " ++ d.app_id ++ " already has redirect URI "
            ++ d.id),
          Event.unlock d.app_id], d.SetId d.uri, []⟩ := by
      simp [resourceAppOAuthRedirectURICreate,
        appendRedirectURI_already r.client d (r d.app_id) hf hid hc, resourceFuncNoOp]
    rw [h1]
    have h2 : Remote.apply r [Event.lock d.app_id, Event.fetch d.app_id,
          Event.info ("application with appID " ++ d.app_id ++ " already has redirect URI "
            ++ d.id),
          Event.unlock d.app_id] = r := rfl
    dsimp only
    rw [h2]
    have h3 := delete_absent r.client (d.SetId d.uri) (r d.app_id) hf hid hv
    rw [h3]
    exact ⟨rfl, rfl, rfl⟩
  · have h1 : resourceAppOAuthRedirectURICreate r.client d =
        ⟨[Event.lock d.app_id, Event.fetch d.app_id,
          Event.update d.app_id ((r d.app_id).setUris ((r d.app_id).uris ++ [d.uri])),
          Event.unlock d.app_id], d.SetId d.uri, []⟩ := by
      have hu : r.client.updateAppByID d.app_id
          ((r d.app_id).setUris ((r d.app_id).uris ++ [d.uri])) = none := rfl
      simp [resourceAppOAuthRedirectURICreate,
        appendRedirectURI_append r.client d (r d.app_id) hf hid hc, resourceFuncNoOp, hu]
    rw [h1]
    have h2 : Remote.apply r [Event.lock d.app_id, Event.fetch d.app_id,
          Event.update d.app_id ((r d.app_id).setUris ((r d.app_id).uris ++ [d.uri])),
          Event.unlock d.app_id] =
        (fun k2 => if k2 = d.app_id then
            (r d.app_id).setUris ((r d.app_id).uris ++ [d.uri]) else r k2) := rfl
    simp only [h2]
    generalize hr1 : (fun k2 => if k2 = d.app_id then
            (r d.app_id).setUris ((r d.app_id).uris ++ [d.uri]) else r k2) = r1
    have hr1a : r1 d.app_id = (r d.app_id).setUris ((r d.app_id).uris ++ [d.uri]) := by
      rw [← hr1]; simp
    have hf1 : (Remote.client r1).fetchAppByID (d.SetId d.uri).app_id =
        Except.ok ((r d.app_id).setUris ((r d.app_id).uris ++ [d.uri])) := by
      show Except.ok (r1 d.app_id) = _
      rw [hr1a]
    have hid1 : ((r d.app_id).setUris ((r d.app_id).uris ++ [d.uri])).Id ≠ "" := hid
    have hmem1 : (d.SetId d.uri).id ∈
        ((r d.app_id).setUris ((r d.app_id).uris ++ [d.uri])).uris := by
      rw [uris_setUris]; simp [ResourceData.SetId]
    have ht := delete_present_trace (Remote.client r1) (d.SetId d.uri) _ hf1 hid1 hmem1
    have hd := delete_present_diags (Remote.client r1) (d.SetId d.uri) _ hf1 hid1 hmem1 rfl
    rw [ht, hd]
    simp only [and_true]
    have hrem : remove ((r d.app_id).setUris ((r d.app_id).uris ++ [d.uri])).uris
        (d.SetId d.uri).id = (r d.app_id).uris := by
      rw [uris_setUris]
      exact remove_append_self _ _ hv
    rw [hrem, setUris_setUris, setUris_uris]
    show (fun k2 => if k2 = d.app_id then r d.app_id else r1 k2) = r
    funext k2
    by_cases e : k2 = d.app_id
    · simp [e]
    · rw [← hr1]; simp [e]

/-- C6 at the list `["a", "b"]` and the fresh value `"c"`. -/
theorem C6_round_trip_witness :
    ((oneApp "app1" ["a", "b"]).apply (resourceAppOAuthRedirectURICreate
        (oneApp "app1" ["a", "b"]).client ⟨"", "app1", "c"⟩).trace).apply
        (resourceAppOAuthRedirectURIDelete
          ((oneApp "app1" ["a", "b"]).apply (resourceAppOAuthRedirectURICreate
            (oneApp "app1" ["a", "b"]).client ⟨"", "app1", "c"⟩).trace).client
          (resourceAppOAuthRedirectURICreate
            (oneApp "app1" ["a", "b"]).client ⟨"", "app1", "c"⟩).d).trace
      = oneApp "app1" ["a", "b"] ∧
    (resourceAppOAuthRedirectURICreate
        (oneApp "app1" ["a", "b"]).client ⟨"", "app1", "c"⟩).diags = [] ∧
    (resourceAppOAuthRedirectURIDelete
        ((oneApp "app1" ["a", "b"]).apply (resourceAppOAuthRedirectURICreate
          (oneApp "app1" ["a", "b"]).client ⟨"", "app1", "c"⟩).trace).client
        (resourceAppOAuthRedirectURICreate
          (oneApp "app1" ["a", "b"]).client ⟨"", "app1", "c"⟩).d).diags = [] :=
  C6_round_trip (oneApp "app1" ["a", "b"]) ⟨"", "app1", "c"⟩ (by decide) (by decide)

/-- C7: when the fetch returns an error, or returns without error an object whose id is
empty, both the create and the update entry point return exactly one error diagnostic,
make no update call and leave the resource data as it was. -/
theorem C7_ensure_present_missing_parent (m : Client) (d : ResourceData)
    (h : (∃ err, m.fetchAppByID d.app_id = Except.error err) ∨
         (∃ app, m.fetchAppByID d.app_id = Except.ok app ∧ app.Id = "")) :
    ((∃ msg, (resourceAppOAuthRedirectURICreate m d).diags = diagErrorf msg) ∧
      (resourceAppOAuthRedirectURICreate m d).diags ≠ [] ∧
      updateCalls (resourceAppOAuthRedirectURICreate m d).trace = [] ∧
      (resourceAppOAuthRedirectURICreate m d).d = d) ∧
    ((∃ msg, (resourceAppOAuthRedirectURIUpdate m d).diags = diagErrorf msg) ∧
      (resourceAppOAuthRedirectURIUpdate m d).diags ≠ [] ∧
      updateCalls (resourceAppOAuthRedirectURIUpdate m d).trace = [] ∧
      (resourceAppOAuthRedirectURIUpdate m d).d = d) := by
  rcases h with ⟨err, hf⟩ | ⟨app, hf, hid⟩
  · simp [resourceAppOAuthRedirectURICreate, resourceAppOAuthRedirectURIUpdate,
      appendRedirectURI_fetch_error m d err hf, updateCalls, diagErrorf]
  · simp [resourceAppOAuthRedirectURICreate, resourceAppOAuthRedirectURIUpdate,
      appendRedirectURI_not_found m d app hf hid, updateCalls, diagErrorf]

/-- C7 at a parent id the remote side does not know. -/
theorem C7_ensure_present_missing_parent_witness :
    ((∃ msg, (resourceAppOAuthRedirectURICreate (oneApp "app1" ["u"]).client
        ⟨"", "gone", "v"⟩).diags = diagErrorf msg) ∧
      (resourceAppOAuthRedirectURICreate (oneApp "app1" ["u"]).client
        ⟨"", "gone", "v"⟩).diags ≠ [] ∧
      updateCalls (resourceAppOAuthRedirectURICreate (oneApp "app1" ["u"]).client
        ⟨"", "gone", "v"⟩).trace = [] ∧
      (resourceAppOAuthRedirectURICreate (oneApp "app1" ["u"]).client
        ⟨"", "gone", "v"⟩).d = ⟨"", "gone", "v"⟩) ∧
    ((∃ msg, (resourceAppOAuthRedirectURIUpdate (oneApp "app1" ["u"]).client
        ⟨"", "gone", "v"⟩).diags = diagErrorf msg) ∧
      (resourceAppOAuthRedirectURIUpdate (oneApp "app1" ["u"]).client
        ⟨"", "gone", "v"⟩).diags ≠ [] ∧
      updateCalls (resourceAppOAuthRedirectURIUpdate (oneApp "app1" ["u"]).client
        ⟨"", "gone", "v"⟩).trace = [] ∧
      (resourceAppOAuthRedirectURIUpdate (oneApp "app1" ["u"]).client
        ⟨"", "gone", "v"⟩).d = ⟨"", "gone", "v"⟩) :=
  C7_ensure_present_missing_parent (oneApp "app1" ["u"]).client ⟨"", "gone", "v"⟩
    (Or.inr ⟨mkApp "" [], rfl, by decide⟩)

/-- C8: no partial state on failure. After the create and after the update entry point,
the operation reports success exactly when `appendRedirectURI` returned no error; the
resource data is the old data with the id set to the uri when the operation reports
success, and is exactly the old data (same identifier) when it reports a failure. -/
theorem C8_no_partial_state (m : Client) (d : ResourceData) :
    ((resourceAppOAuthRedirectURICreate m d).diags = [] ↔ (appendRedirectURI m d).2 = none) ∧
    (resourceAppOAuthRedirectURICreate m d).d =
      (if (resourceAppOAuthRedirectURICreate m d).diags = [] then d.SetId d.uri else d) ∧
    ((resourceAppOAuthRedirectURIUpdate m d).diags = [] ↔ (appendRedirectURI m d).2 = none) ∧
    (resourceAppOAuthRedirectURIUpdate m d).d =
      (if (resourceAppOAuthRedirectURIUpdate m d).diags = [] then d.SetId d.uri else d) := by
  rcases h : (appendRedirectURI m d).2 with _ | err
  · rw [create_of_none m d h, update_of_none m d h]
    simp
  · rw [create_of_some m d err h, update_of_some m d err h]
    simp [diagErrorf]

/-- C9: scoped critical section. The trace of `appendRedirectURI` and the trace of the
delete entry point both have the shape: lock of `app_id`, then events none of which
takes or releases a lock and whose remote calls (fetch, update) are all addressed to
`app_id`, then unlock of `app_id` as the last event. This holds on every path, since no
assumption is made on the answers of the remote side. -/
theorem C9_scoped_critical_section (m : Client) (d : ResourceData) :
    (∃ mid, (appendRedirectURI m d).1 =
        Event.lock d.app_id :: mid ++ [Event.unlock d.app_id] ∧
      mid.all (fun e => !e.isLockOp &&
        (e.remoteKey == none || e.remoteKey == some d.app_id)) = true) ∧
    (∃ mid, (resourceAppOAuthRedirectURIDelete m d).trace =
        Event.lock d.app_id :: mid ++ [Event.unlock d.app_id] ∧
      mid.all (fun e => !e.isLockOp &&
        (e.remoteKey == none || e.remoteKey == some d.app_id)) = true) := by
  constructor
  · refine ⟨(appendRedirectURIBody m d d.app_id).1, rfl, ?_⟩
    unfold appendRedirectURIBody
    split
    · simp [Event.isLockOp, Event.remoteKey]
    · split
      · simp [Event.isLockOp, Event.remoteKey]
      · split <;> simp [Event.isLockOp, Event.remoteKey]
  · refine ⟨(resourceAppOAuthRedirectURIDeleteBody m d d.app_id).1, rfl, ?_⟩
    unfold resourceAppOAuthRedirectURIDeleteBody
    split
    · simp [Event.isLockOp, Event.remoteKey]
    · split
      · simp [Event.isLockOp, Event.remoteKey]
      · split
        · simp [Event.isLockOp, Event.remoteKey]
        · dsimp only
          split <;> simp [Event.isLockOp, Event.remoteKey]

/-- C10 (fails on the code): the parent list is empty and two creates for the distinct
values `""` and `"a"` run one after the other, the one for `""` first, each holding the
lock for its whole run and every remote call succeeding. The second create finds its
empty identifier in the list `[""]`, makes no update call and reports success: the final
list is `[""]` and `"a"` is lost. Run in the other order the same two creates keep both
values. -/
theorem C10_serial_creates_lose_value :
    ((((oneApp "app1" []).apply (resourceAppOAuthRedirectURICreate
          (oneApp "app1" []).client ⟨"", "app1", ""⟩).trace).apply
        (resourceAppOAuthRedirectURICreate
          ((oneApp "app1" []).apply (resourceAppOAuthRedirectURICreate
            (oneApp "app1" []).client ⟨"", "app1", ""⟩).trace).client
          ⟨"", "app1", "a"⟩).trace) "app1").uris = [""] ∧
    (resourceAppOAuthRedirectURICreate (oneApp "app1" []).client ⟨"", "app1", ""⟩).diags = [] ∧
    (resourceAppOAuthRedirectURICreate
        ((oneApp "app1" []).apply (resourceAppOAuthRedirectURICreate
          (oneApp "app1" []).client ⟨"", "app1", ""⟩).trace).client
        ⟨"", "app1", "a"⟩).diags = [] ∧
    ((((oneApp "app1" []).apply (resourceAppOAuthRedirectURICreate
          (oneApp "app1" []).client ⟨"", "app1", "a"⟩).trace).apply
        (resourceAppOAuthRedirectURICreate
          ((oneApp "app1" []).apply (resourceAppOAuthRedirectURICreate
            (oneApp "app1" []).client ⟨"", "app1", "a"⟩).trace).client
          ⟨"", "app1", ""⟩).trace) "app1").uris = ["a", ""] := by
  decide

end Okta
